import Mathlib

/-!
Verification development for the serial data recorder (`pipe.py`).

The program captures bursts of comma-separated sensor telemetry from a
serial device, stores each capture as a CSV file under a per-label
directory, and previews stored samples.  This file gives a shallow
embedding of the capture loop (`read_serial_data`), the CSV writer
(`save_data_to_csv`), the preview loader
(`preview_selected_sample_event`), the label sanitizer
(`add_new_label`), and the delete-selection logic
(`delete_selected_sample`), and proves the spec's testable properties
about them.

Modelling conventions:
* Python floats are modelled as rationals (`ℚ`); the properties proved
  here do not depend on rounding.
* One comma-separated token of an input line or a CSV file is a `Tok`:
  it either parses as a Python `int` (hence also as a `float`), parses
  as a `float` only, or fails both parses.
* The serial stream is a finite list of `SerialEvent`s: the events the
  loop observes before it exits.  `blank` models `ser.readline()`
  returning an empty line (read timeout), `line parts` a non-empty line
  already split on `","`, and `ioError` an exception raised by the
  read/decode step.  An exhausted event list returns the state reached
  so far (the real loop only exits via the duration break or an
  exception; finite traces ending without either observe the
  accumulated state at that point).
* The file system is an association list from paths to CSV row lists;
  `WriteOutcome` records where (if anywhere) the OS makes
  `open`/`writerows` raise.
-/

/-- Configuration constant `RECORD_DURATION_SECONDS = 2.5` (pipe.py line 27). -/
def RECORD_DURATION_SECONDS : ℚ := 5/2

/-- Configuration constant `DATA_COLUMNS = 6` (pipe.py line 28). -/
def DATA_COLUMNS : ℕ := 6

/-- Configuration constant `BASE_FOLDER_NAME = "samples"` (pipe.py line 31). -/
def BASE_FOLDER_NAME : String := "samples"

/-- `duration_ms = RECORD_DURATION_SECONDS * 1000` (pipe.py line 289);
Python evaluates `2.5 * 1000` to `2500.0`, i.e. the rational 2500 (the
product is given in evaluated form so that the model computes by kernel
reduction; `duration_ms_spec` below proves it equal to the source
expression). -/
def duration_ms : ℚ := 2500

/-- `duration_ms` is exactly `RECORD_DURATION_SECONDS * 1000` (pipe.py
line 289). -/
theorem duration_ms_spec : duration_ms = RECORD_DURATION_SECONDS * 1000 := by
  norm_num [duration_ms, RECORD_DURATION_SECONDS]

/-- One comma-separated token of an input line, classified by how Python
numeric parsing treats it: `intTok n` parses as `int(x) = n` (and as
`float`), `floatTok q` parses as `float(x) = q` but not as `int`
(e.g. `"1.5"`), `badTok` raises `ValueError` for both. -/
inductive Tok where
  | intTok (n : ℤ)
  | floatTok (q : ℚ)
  | badTok
deriving DecidableEq, Repr

/-- Python `int(x)` on a token: succeeds only on integer literals. -/
def int_of_tok : Tok → Option ℤ
  | Tok.intTok n => some n
  | Tok.floatTok _ => none
  | Tok.badTok => none

/-- Python `float(x)` on a token: succeeds on integer and float literals. -/
def float_of_tok : Tok → Option ℚ
  | Tok.intTok n => some (n : ℚ)
  | Tok.floatTok q => some q
  | Tok.badTok => none

/-- One observation of the capture loop's read step (pipe.py line 292). -/
inductive SerialEvent where
  | blank
  | line (parts : List Tok)
  | ioError
deriving DecidableEq, Repr

/-- The comprehension `[float(x) for x in toks]` (pipe.py lines 306 and
440): all tokens parse as floats, or the first `ValueError` aborts it. -/
def floats_of_toks : List Tok → Option (List ℚ)
  | [] => some []
  | t :: rest =>
    match float_of_tok t, floats_of_toks rest with
    | some q, some qs => some (q :: qs)
    | _, _ => none

/-- The parse step of the capture loop (pipe.py lines 296-308): split parts
must number exactly `DATA_COLUMNS + 1`; token 0 must parse as an `int`
timestamp and the rest as floats; otherwise the line is discarded. -/
def parse_line (parts : List Tok) : Option (ℤ × List ℚ) :=
  if parts.length = DATA_COLUMNS + 1 then
    match parts with
    | [] => none
    | p0 :: rest =>
      match int_of_tok p0, floats_of_toks rest with
      | some timestamp, some floats => some (timestamp, floats)
      | _, _ => none
  else none

/-- The `while True` loop of `read_serial_data` (pipe.py lines 291-317).
`start_ts` and `data` are the loop's mutable state; the result is
`Except.error ()` when an exception escapes the loop and `Except.ok data`
when the loop breaks (or the event trace ends). -/
def read_loop : List SerialEvent → Option ℤ → List (List ℚ) → Except Unit (List (List ℚ))
  | [], _, data => Except.ok data
  | SerialEvent.blank :: rest, start_ts, data => read_loop rest start_ts data
  | SerialEvent.ioError :: _, _, _ => Except.error ()
  | SerialEvent.line parts :: rest, start_ts, data =>
    match parse_line parts with
    | none => read_loop rest start_ts data
    | some (timestamp, floats) =>
      let s := start_ts.getD timestamp
      if duration_ms ≤ ((timestamp - s : ℤ) : ℚ) then Except.ok data
      else read_loop rest (some s) (data ++ [floats])

/-- Instrumented variant of `read_loop` that keeps each appended record's
timestamp next to its float vector (the code drops the timestamp at
pipe.py line 317); used to state timing properties of the capture. -/
def read_loop_records : List SerialEvent → Option ℤ → List (ℤ × List ℚ) →
    Except Unit (List (ℤ × List ℚ))
  | [], _, recs => Except.ok recs
  | SerialEvent.blank :: rest, start_ts, recs => read_loop_records rest start_ts recs
  | SerialEvent.ioError :: _, _, _ => Except.error ()
  | SerialEvent.line parts :: rest, start_ts, recs =>
    match parse_line parts with
    | none => read_loop_records rest start_ts recs
    | some (timestamp, floats) =>
      let s := start_ts.getD timestamp
      if duration_ms ≤ ((timestamp - s : ℤ) : ℚ) then Except.ok recs
      else read_loop_records rest (some s) (recs ++ [(timestamp, floats)])

/-- The loop state `(start_ts, records)` reached after consuming a trace
with neither a break nor an error; `none` if the loop exited early. -/
def read_loop_state : List SerialEvent → Option ℤ → List (ℤ × List ℚ) →
    Option (Option ℤ × List (ℤ × List ℚ))
  | [], start_ts, recs => some (start_ts, recs)
  | SerialEvent.blank :: rest, start_ts, recs => read_loop_state rest start_ts recs
  | SerialEvent.ioError :: _, _, _ => none
  | SerialEvent.line parts :: rest, start_ts, recs =>
    match parse_line parts with
    | none => read_loop_state rest start_ts recs
    | some (timestamp, floats) =>
      let s := start_ts.getD timestamp
      if duration_ms ≤ ((timestamp - s : ℤ) : ℚ) then none
      else read_loop_state rest (some s) (recs ++ [(timestamp, floats)])

/-- Result of one call to `read_serial_data`: the returned capture and
whether `ser.close()` was executed. -/
structure ReadResult where
  data : List (List ℚ)
  closed : Bool
deriving DecidableEq, Repr

/-- `read_serial_data` (pipe.py lines 275-326).  `port_detected` models
`self.wio_port_name` being set; `open_ok` models `serial.Serial(...)` and
`reset_input_buffer` succeeding.  The `except` handler (lines 323-326)
returns `[]` and does not close the handle; `ser.close()` (line 319) runs
only on the normal path. -/
def read_serial_data (port_detected : Bool) (open_ok : Bool)
    (events : List SerialEvent) : ReadResult :=
  if port_detected = false then ⟨[], false⟩
  else if open_ok = false then ⟨[], false⟩
  else
    match read_loop events none [] with
    | Except.ok data => ⟨data, true⟩
    | Except.error _ => ⟨[], false⟩

/-- A stored CSV file: its rows, each a list of tokens. -/
abbrev FileContent := List (List Tok)

/-- The on-disk state: paths mapped to file contents (latest entry wins). -/
abbrev FS := List (String × FileContent)

/-- Look a file up on disk. -/
def get_file (fs : FS) (path : String) : Option FileContent :=
  (fs.find? (fun e => e.1 == path)).map (fun e => e.2)

/-- Create or overwrite a file (Python `open(path, "w")` then writes). -/
def set_file (fs : FS) (path : String) (content : FileContent) : FS :=
  (path, content) :: fs.filter (fun e => e.1 != path)

/-- `os.remove(path)` when it succeeds. -/
def os_remove (fs : FS) (path : String) : FS :=
  fs.filter (fun e => e.1 != path)

/-- `csv.writer(f).writerows(data)` serialization: one CSV row per float
vector; each float is written as a token that reads back as that float
(and not as an `int`, since Python prints floats with a decimal point). -/
def csv_writerows (data : List (List ℚ)) : FileContent :=
  data.map (fun r => r.map Tok.floatTok)

/-- Where (if anywhere) the environment makes the write raise:
`openFail` — `open(filepath, "w")` itself raises, no file is created;
`writeFail k` — `open` succeeded (creating/truncating the file) and
`writerows` raised after `k` rows; `ok` — no exception. -/
inductive WriteOutcome where
  | openFail
  | writeFail (rows_written : ℕ)
  | ok
deriving DecidableEq, Repr

/-- `save_data_to_csv` (pipe.py lines 328-350).  `now` is
`datetime.now().strftime("%Y%m%d_%H%M%S")` at call time.  Returns the
disk state after the call and the returned filepath (`none` for the
`return None` paths).  The `except` handler (lines 348-350) only sets a
status message: it does not remove a partially written file. -/
def save_data_to_csv (fs : FS) (data : List (List ℚ))
    (current_label_dir : Option String) (now : String) (w : WriteOutcome) :
    FS × Option String :=
  match current_label_dir with
  | none => (fs, none)
  | some dir =>
    if data.isEmpty then (fs, none)
    else
      let filename := dir ++ "_" ++ now ++ ".csv"
      let filepath := BASE_FOLDER_NAME ++ "/" ++ dir ++ "/" ++ filename
      match w with
      | WriteOutcome.openFail => (fs, none)
      | WriteOutcome.writeFail k =>
        (set_file fs filepath (csv_writerows (data.take k)), none)
      | WriteOutcome.ok =>
        (set_file fs filepath (csv_writerows data), some filepath)

/-- The row loop of `preview_selected_sample_event` (pipe.py lines
435-443): rows whose tokens all parse as floats are appended; a
`ValueError` skips the row. -/
def preview_load : FileContent → List (List ℚ) → List (List ℚ)
  | [], preview_data => preview_data
  | row :: rest, preview_data =>
    match floats_of_toks row with
    | some floats => preview_load rest (preview_data ++ [floats])
    | none => preview_load rest preview_data

/-- Loading a stored sample for preview (pipe.py lines 435-443). -/
def preview_selected_sample (file : FileContent) : List (List ℚ) :=
  preview_load file []

/-- The character filter of the label sanitizer (pipe.py line 215):
keep alphanumerics, `_` and `-`. -/
def keep_char (c : Char) : Bool := c.isAlphanum || c == '_' || c == '-'

/-- Python `str.strip()`: drop leading and trailing whitespace. -/
def py_strip (l : List Char) : List Char :=
  ((l.dropWhile Char.isWhitespace).reverse.dropWhile Char.isWhitespace).reverse

/-- The sanitizer of `add_new_label` (pipe.py line 215):
`"".join(c for c in label_name if c.isalnum() or c in ('_', '-')).strip()`.
Strings are modelled as lists of characters. -/
def sanitize_label (label_name : List Char) : List Char :=
  py_strip (label_name.filter keep_char)

/-- `add_new_label` (pipe.py lines 212-235) restricted to its directory
effect: rejects an empty sanitized name; `os.makedirs` raises (caught at
line 234) when the directory exists, leaving the store unchanged;
otherwise the directory is created and the canonical name returned. -/
def add_new_label (label_dirs : List (List Char)) (label_name : List Char) :
    List (List Char) × Option (List Char) :=
  let sanitized_name := sanitize_label label_name
  if sanitized_name = [] then (label_dirs, none)
  else if sanitized_name ∈ label_dirs then (label_dirs, none)
  else (sanitized_name :: label_dirs, some sanitized_name)

/-- The selection focus logic of `delete_selected_sample` (pipe.py lines
467-476): `size` is the listbox size before the refresh (the pre-delete
item count), `idx` the deleted index; `-1` means "select nothing". -/
def next_index_to_select (size idx : ℕ) : ℤ :=
  if 1 < size then
    if idx < size - 1 then (idx : ℤ)
    else if 0 < idx then (idx : ℤ) - 1
    else -1
  else -1

/-- `delete_selected_sample` (pipe.py lines 451-495) restricted to its
disk and selection effect: `remove_ok` models `os.remove` succeeding; on
an `OSError` the handler (line 492) only sets a status message, leaving
the file and the selection untouched (reported here as `-1`). -/
def delete_selected_sample (fs : FS) (path : String) (size idx : ℕ)
    (remove_ok : Bool) : FS × ℤ :=
  if remove_ok then (os_remove fs path, next_index_to_select size idx)
  else (fs, -1)

/-- A well-formed input line with timestamp `t` and all data fields `1.0`,
used to evaluate the model on concrete traces. -/
def test_line (t : ℤ) : List Tok :=
  Tok.intTok t :: List.replicate DATA_COLUMNS (Tok.floatTok 1)

/-! ### Unfolding lemmas for the capture loop -/

@[simp] theorem read_loop_nil (s : Option ℤ) (d : List (List ℚ)) :
    read_loop [] s d = Except.ok d := rfl

@[simp] theorem read_loop_blank (rest : List SerialEvent) (s : Option ℤ)
    (d : List (List ℚ)) :
    read_loop (SerialEvent.blank :: rest) s d = read_loop rest s d := rfl

@[simp] theorem read_loop_io (rest : List SerialEvent) (s : Option ℤ)
    (d : List (List ℚ)) :
    read_loop (SerialEvent.ioError :: rest) s d = Except.error () := rfl

theorem read_loop_line_none (parts : List Tok) (rest : List SerialEvent)
    (s : Option ℤ) (d : List (List ℚ)) (h : parse_line parts = none) :
    read_loop (SerialEvent.line parts :: rest) s d = read_loop rest s d := by
  simp [read_loop, h]

theorem read_loop_line_some (parts : List Tok) (rest : List SerialEvent)
    (s : Option ℤ) (d : List (List ℚ)) (ts : ℤ) (fs : List ℚ)
    (h : parse_line parts = some (ts, fs)) :
    read_loop (SerialEvent.line parts :: rest) s d =
      (if duration_ms ≤ ((ts - s.getD ts : ℤ) : ℚ) then Except.ok d
       else read_loop rest (some (s.getD ts)) (d ++ [fs])) := by
  simp [read_loop, h]

@[simp] theorem read_loop_records_nil (s : Option ℤ) (acc : List (ℤ × List ℚ)) :
    read_loop_records [] s acc = Except.ok acc := rfl

@[simp] theorem read_loop_records_blank (rest : List SerialEvent) (s : Option ℤ)
    (acc : List (ℤ × List ℚ)) :
    read_loop_records (SerialEvent.blank :: rest) s acc =
      read_loop_records rest s acc := rfl

@[simp] theorem read_loop_records_io (rest : List SerialEvent) (s : Option ℤ)
    (acc : List (ℤ × List ℚ)) :
    read_loop_records (SerialEvent.ioError :: rest) s acc = Except.error () := rfl

theorem read_loop_records_line_none (parts : List Tok) (rest : List SerialEvent)
    (s : Option ℤ) (acc : List (ℤ × List ℚ)) (h : parse_line parts = none) :
    read_loop_records (SerialEvent.line parts :: rest) s acc =
      read_loop_records rest s acc := by
  simp [read_loop_records, h]

theorem read_loop_records_line_some (parts : List Tok) (rest : List SerialEvent)
    (s : Option ℤ) (acc : List (ℤ × List ℚ)) (ts : ℤ) (fs : List ℚ)
    (h : parse_line parts = some (ts, fs)) :
    read_loop_records (SerialEvent.line parts :: rest) s acc =
      (if duration_ms ≤ ((ts - s.getD ts : ℤ) : ℚ) then Except.ok acc
       else read_loop_records rest (some (s.getD ts)) (acc ++ [(ts, fs)])) := by
  simp [read_loop_records, h]

@[simp] theorem read_loop_state_nil (s : Option ℤ) (acc : List (ℤ × List ℚ)) :
    read_loop_state [] s acc = some (s, acc) := rfl

@[simp] theorem read_loop_state_blank (rest : List SerialEvent) (s : Option ℤ)
    (acc : List (ℤ × List ℚ)) :
    read_loop_state (SerialEvent.blank :: rest) s acc =
      read_loop_state rest s acc := rfl

@[simp] theorem read_loop_state_io (rest : List SerialEvent) (s : Option ℤ)
    (acc : List (ℤ × List ℚ)) :
    read_loop_state (SerialEvent.ioError :: rest) s acc = none := rfl

theorem read_loop_state_line_none (parts : List Tok) (rest : List SerialEvent)
    (s : Option ℤ) (acc : List (ℤ × List ℚ)) (h : parse_line parts = none) :
    read_loop_state (SerialEvent.line parts :: rest) s acc =
      read_loop_state rest s acc := by
  simp [read_loop_state, h]

theorem read_loop_state_line_some (parts : List Tok) (rest : List SerialEvent)
    (s : Option ℤ) (acc : List (ℤ × List ℚ)) (ts : ℤ) (fs : List ℚ)
    (h : parse_line parts = some (ts, fs)) :
    read_loop_state (SerialEvent.line parts :: rest) s acc =
      (if duration_ms ≤ ((ts - s.getD ts : ℤ) : ℚ) then none
       else read_loop_state rest (some (s.getD ts)) (acc ++ [(ts, fs)])) := by
  simp [read_loop_state, h]

/-! ### Structural lemmas for the capture loop -/

/-- The loop only ever appends: the final record list extends the accumulator. -/
theorem read_loop_records_extends (evs : List SerialEvent) :
    ∀ (s : Option ℤ) (acc recs : List (ℤ × List ℚ)),
      read_loop_records evs s acc = Except.ok recs → ∃ t, recs = acc ++ t := by
  induction evs with
  | nil =>
    intro s acc recs h
    simp only [read_loop_records_nil, Except.ok.injEq] at h
    exact ⟨[], by simp [h]⟩
  | cons e rest ih =>
    intro s acc recs h
    cases e with
    | blank => exact ih s acc recs (by simpa using h)
    | ioError => simp at h
    | line parts =>
      cases hp : parse_line parts with
      | none =>
        rw [read_loop_records_line_none parts rest s acc hp] at h
        exact ih s acc recs h
      | some v =>
        obtain ⟨ts, fs⟩ := v
        rw [read_loop_records_line_some parts rest s acc ts fs hp] at h
        by_cases hd : duration_ms ≤ ((ts - s.getD ts : ℤ) : ℚ)
        · rw [if_pos hd] at h
          simp only [Except.ok.injEq] at h
          exact ⟨[], by simp [h]⟩
        · rw [if_neg hd] at h
          obtain ⟨t, ht⟩ := ih _ _ _ h
          exact ⟨(ts, fs) :: t, by simp [ht]⟩

/-- Once the zero point is `s0`, every record the loop appends beyond the
accumulator has a timestamp delta from `s0` strictly below the duration. -/
theorem read_loop_records_bound (evs : List SerialEvent) :
    ∀ (s0 : ℤ) (acc recs : List (ℤ × List ℚ)),
      (∀ r ∈ acc, ((r.1 : ℚ) - (s0 : ℚ)) < duration_ms) →
      read_loop_records evs (some s0) acc = Except.ok recs →
      ∀ r ∈ recs, ((r.1 : ℚ) - (s0 : ℚ)) < duration_ms := by
  induction evs with
  | nil =>
    intro s0 acc recs hacc h
    simp only [read_loop_records_nil, Except.ok.injEq] at h
    exact h ▸ hacc
  | cons e rest ih =>
    intro s0 acc recs hacc h
    cases e with
    | blank => exact ih s0 acc recs hacc (by simpa using h)
    | ioError => simp at h
    | line parts =>
      cases hp : parse_line parts with
      | none =>
        rw [read_loop_records_line_none parts rest _ acc hp] at h
        exact ih s0 acc recs hacc h
      | some v =>
        obtain ⟨ts, fs⟩ := v
        rw [read_loop_records_line_some parts rest _ acc ts fs hp] at h
        simp only [Option.getD_some] at h
        by_cases hd : duration_ms ≤ ((ts - s0 : ℤ) : ℚ)
        · rw [if_pos hd] at h
          simp only [Except.ok.injEq] at h
          exact h ▸ hacc
        · rw [if_neg hd] at h
          refine ih s0 (acc ++ [(ts, fs)]) recs ?_ h
          intro r hr
          rcases List.mem_append.mp hr with hr | hr
          · exact hacc r hr
          · simp only [List.mem_singleton] at hr
            subst hr
            push_cast at hd ⊢
            linarith [lt_of_not_le hd]

/-- Running the loop over a concatenated trace: if the first part ends in
state `(s2, acc2)` with neither break nor error, the loop continues into
the second part from that state. -/
theorem read_loop_state_append (pre : List SerialEvent) :
    ∀ (evs : List SerialEvent) (s s2 : Option ℤ) (acc acc2 : List (ℤ × List ℚ)),
      read_loop_state pre s acc = some (s2, acc2) →
      read_loop_records (pre ++ evs) s acc = read_loop_records evs s2 acc2 := by
  induction pre with
  | nil =>
    intro evs s s2 acc acc2 h
    simp only [read_loop_state_nil, Option.some.injEq, Prod.mk.injEq] at h
    simp [h.1, h.2]
  | cons e rest ih =>
    intro evs s s2 acc acc2 h
    cases e with
    | blank =>
      simp only [read_loop_state_blank] at h
      simpa using ih evs s s2 acc acc2 h
    | ioError => simp at h
    | line parts =>
      cases hp : parse_line parts with
      | none =>
        rw [read_loop_state_line_none parts rest s acc hp] at h
        rw [List.cons_append, read_loop_records_line_none parts _ s acc hp]
        exact ih evs s s2 acc acc2 h
      | some v =>
        obtain ⟨ts, fs⟩ := v
        rw [read_loop_state_line_some parts rest s acc ts fs hp] at h
        rw [List.cons_append, read_loop_records_line_some parts _ s acc ts fs hp]
        by_cases hd : duration_ms ≤ ((ts - s.getD ts : ℤ) : ℚ)
        · rw [if_pos hd] at h
          simp at h
        · rw [if_neg hd] at h
          rw [if_neg hd]
          exact ih evs _ s2 _ acc2 h

/-- `read_loop` is the timestamp-erased projection of `read_loop_records`. -/
theorem read_loop_proj (evs : List SerialEvent) :
    ∀ (s : Option ℤ) (recs : List (ℤ × List ℚ)),
      read_loop evs s (recs.map Prod.snd) =
        Except.map (List.map Prod.snd) (read_loop_records evs s recs) := by
  induction evs with
  | nil => intro s recs; rfl
  | cons e rest ih =>
    intro s recs
    cases e with
    | blank => simpa using ih s recs
    | ioError => rfl
    | line parts =>
      cases hp : parse_line parts with
      | none =>
        rw [read_loop_line_none parts rest s _ hp,
          read_loop_records_line_none parts rest s recs hp]
        exact ih s recs
      | some v =>
        obtain ⟨ts, fs⟩ := v
        rw [read_loop_line_some parts rest s _ ts fs hp,
          read_loop_records_line_some parts rest s recs ts fs hp]
        by_cases hd : duration_ms ≤ ((ts - s.getD ts : ℤ) : ℚ)
        · rw [if_pos hd, if_pos hd]
          rfl
        · rw [if_neg hd, if_neg hd]
          have : (recs.map Prod.snd) ++ [fs] = (recs ++ [(ts, fs)]).map Prod.snd := by
            simp
          rw [this]
          exact ih _ _

/-- From a fresh start, the first appended record is the zero point and
every record of the capture stays strictly below the duration bound
relative to it. -/
theorem read_loop_records_head_bound (evs : List SerialEvent) :
    ∀ recs : List (ℤ × List ℚ),
      read_loop_records evs none [] = Except.ok recs →
      ∀ r0, recs.head? = some r0 →
        ∀ r ∈ recs, ((r.1 : ℚ) - (r0.1 : ℚ)) < duration_ms := by
  induction evs with
  | nil =>
    intro recs h
    simp only [read_loop_records_nil, Except.ok.injEq] at h
    subst h
    intro r0 hr0
    simp at hr0
  | cons e rest ih =>
    intro recs h
    cases e with
    | blank => exact ih recs (by simpa using h)
    | ioError => simp at h
    | line parts =>
      cases hp : parse_line parts with
      | none =>
        rw [read_loop_records_line_none parts rest none [] hp] at h
        exact ih recs h
      | some v =>
        obtain ⟨ts, fs⟩ := v
        rw [read_loop_records_line_some parts rest none [] ts fs hp] at h
        simp only [Option.getD_none] at h
        have hz : ¬ duration_ms ≤ ((ts - ts : ℤ) : ℚ) := by
          rw [sub_self]
          norm_num [duration_ms, RECORD_DURATION_SECONDS]
        rw [if_neg hz, List.nil_append] at h
        obtain ⟨t, ht⟩ := read_loop_records_extends rest (some ts) [(ts, fs)] recs h
        intro r0 hr0
        rw [ht] at hr0
        simp only [List.singleton_append, List.head?_cons, Option.some.injEq] at hr0
        subst hr0
        have hb := read_loop_records_bound rest ts [(ts, fs)] recs ?_ h
        · simpa using hb
        · intro r hr
          simp only [List.mem_singleton] at hr
          subst hr
          simp only [sub_self]
          norm_num [duration_ms, RECORD_DURATION_SECONDS]

/-- C1: every capture returned by `read_serial_data` keeps each included
record's timestamp delta from the first accepted record strictly below
`duration_ms` (2.5 s = 2500 ms); the first successfully parsed record
whose delta reaches the duration is excluded from the output and
terminates the read loop (later events are never consumed). -/
theorem c1_capture_duration_bound (evs pre post : List SerialEvent)
    (recs : List (ℤ × List ℚ)) (parts : List Tok) :
    (read_loop_records evs none [] = Except.ok recs →
      (read_serial_data true true evs).data = recs.map Prod.snd) ∧
    (read_loop_records evs none [] = Except.ok recs →
      ∀ r0, recs.head? = some r0 →
        ∀ r ∈ recs, ((r.1 : ℚ) - (r0.1 : ℚ)) < duration_ms) ∧
    (∀ (s0 : ℤ) (d : List (ℤ × List ℚ)) (ts : ℤ) (fs : List ℚ),
      read_loop_state pre none [] = some (some s0, d) →
      parse_line parts = some (ts, fs) →
      duration_ms ≤ (ts : ℚ) - (s0 : ℚ) →
      read_loop_records (pre ++ SerialEvent.line parts :: post) none [] =
        Except.ok d) := by
  refine ⟨?_, read_loop_records_head_bound evs recs, ?_⟩
  · intro h
    have hproj := read_loop_proj evs none []
    rw [h] at hproj
    simp only [List.map_nil] at hproj
    simp [read_serial_data, hproj, Except.map]
  · intro s0 d ts fs hstate hp hge
    rw [read_loop_state_append pre _ none (some s0) [] d hstate]
    rw [read_loop_records_line_some parts post (some s0) d ts fs hp]
    simp only [Option.getD_some]
    rw [if_pos (by push_cast; linarith)]

/-- Witness for C1 on a concrete trace: records at 0 ms and 100 ms are
kept, the record at 2500 ms is excluded and ends the capture. -/
theorem c1_capture_duration_bound_witness :
    (read_serial_data true true
        [SerialEvent.line (test_line 0), SerialEvent.blank,
         SerialEvent.line (test_line 100), SerialEvent.line (test_line 2500)]).data =
      [((0 : ℤ), List.replicate DATA_COLUMNS (1 : ℚ)),
       ((100 : ℤ), List.replicate DATA_COLUMNS (1 : ℚ))].map Prod.snd ∧
    ((((100 : ℤ), List.replicate DATA_COLUMNS (1 : ℚ)).1 : ℚ) -
      (((0 : ℤ), List.replicate DATA_COLUMNS (1 : ℚ)).1 : ℚ)) < duration_ms ∧
    read_loop_records
        ([SerialEvent.line (test_line 0)] ++
          SerialEvent.line (test_line 2500) :: [SerialEvent.line (test_line 9999)])
        none [] =
      Except.ok [((0 : ℤ), List.replicate DATA_COLUMNS (1 : ℚ))] :=
  ⟨(c1_capture_duration_bound
      [SerialEvent.line (test_line 0), SerialEvent.blank,
       SerialEvent.line (test_line 100), SerialEvent.line (test_line 2500)] [] []
      [((0 : ℤ), List.replicate DATA_COLUMNS (1 : ℚ)),
       ((100 : ℤ), List.replicate DATA_COLUMNS (1 : ℚ))] []).1 (by rfl),
   (c1_capture_duration_bound
      [SerialEvent.line (test_line 0), SerialEvent.blank,
       SerialEvent.line (test_line 100), SerialEvent.line (test_line 2500)] [] []
      [((0 : ℤ), List.replicate DATA_COLUMNS (1 : ℚ)),
       ((100 : ℤ), List.replicate DATA_COLUMNS (1 : ℚ))] []).2.1 (by rfl)
      ((0 : ℤ), List.replicate DATA_COLUMNS (1 : ℚ)) (by rfl)
      ((100 : ℤ), List.replicate DATA_COLUMNS (1 : ℚ)) (by decide),
   (c1_capture_duration_bound [] [SerialEvent.line (test_line 0)]
      [SerialEvent.line (test_line 9999)] [] (test_line 2500)).2.2 0
      [((0 : ℤ), List.replicate DATA_COLUMNS (1 : ℚ))] 2500
      (List.replicate DATA_COLUMNS (1 : ℚ)) (by rfl) (by rfl)
      (by norm_num [duration_ms])⟩

/-- C4: an input line that does not split on comma into exactly
`DATA_COLUMNS + 1` pieces, or any of whose pieces fails its numeric parse
(integer timestamp, floats for the rest), is discarded: it contributes
nothing to the output, does not set the capture's zero point, and does
not affect the duration clock (the loop continues in the same state). -/
theorem c4_malformed_line_discarded (parts : List Tok) (rest : List SerialEvent)
    (start_ts : Option ℤ) (data : List (List ℚ))
    (h : parts.length ≠ DATA_COLUMNS + 1 ∨
      ∃ p0 ps, parts = p0 :: ps ∧
        (int_of_tok p0 = none ∨ floats_of_toks ps = none)) :
    parse_line parts = none ∧
    read_loop (SerialEvent.line parts :: rest) start_ts data =
      read_loop rest start_ts data := by
  have hp : parse_line parts = none := by
    rcases h with h | ⟨p0, ps, rfl, h⟩
    · simp [parse_line, h]
    · by_cases hl : (p0 :: ps).length = DATA_COLUMNS + 1
      · rcases h with h | h
        · simp [parse_line, hl, h]
        · cases hi : int_of_tok p0 <;> simp [parse_line, hl, h, hi]
      · simp only [parse_line]
        rw [if_neg hl]
  exact ⟨hp, read_loop_line_none parts rest start_ts data hp⟩

/-- Witness for C4: a 2-piece line (wrong field count) and a 7-piece line
with a malformed float are both discarded without changing the loop
state. -/
theorem c4_malformed_line_discarded_witness :
    (parse_line [Tok.intTok 5, Tok.floatTok 1] = none ∧
      read_loop [SerialEvent.line [Tok.intTok 5, Tok.floatTok 1],
          SerialEvent.line (test_line 0)] (some 3) [[2]] =
        read_loop [SerialEvent.line (test_line 0)] (some 3) [[2]]) ∧
    (parse_line (Tok.intTok 5 :: List.replicate 5 (Tok.floatTok 1) ++ [Tok.badTok]) = none ∧
      read_loop [SerialEvent.line
          (Tok.intTok 5 :: List.replicate 5 (Tok.floatTok 1) ++ [Tok.badTok])]
          none [] =
        read_loop [] none []) :=
  ⟨c4_malformed_line_discarded [Tok.intTok 5, Tok.floatTok 1]
      [SerialEvent.line (test_line 0)] (some 3) [[2]] (Or.inl (by decide)),
   c4_malformed_line_discarded
      (Tok.intTok 5 :: List.replicate 5 (Tok.floatTok 1) ++ [Tok.badTok]) [] none []
      (Or.inr ⟨Tok.intTok 5, List.replicate 5 (Tok.floatTok 1) ++ [Tok.badTok],
        rfl, Or.inr (by rfl)⟩)⟩

/-- C5: a device-open failure, or an I/O error raised mid-read, makes
`read_serial_data` return an empty capture: the partial records collected
before the error are discarded (and the handler leaves the handle
unclosed, see C2). -/
theorem c5_io_error_discards_data (evs pre post : List SerialEvent) :
    (read_serial_data true false evs).data = [] ∧
    (∀ (s2 : Option ℤ) (recs : List (ℤ × List ℚ)),
      read_loop_state pre none [] = some (s2, recs) →
      read_serial_data true true (pre ++ SerialEvent.ioError :: post) =
        ⟨[], false⟩) := by
  constructor
  · rfl
  · intro s2 recs h
    have hrec : read_loop_records (pre ++ SerialEvent.ioError :: post) none [] =
        Except.error () := by
      rw [read_loop_state_append pre _ none s2 [] recs h]
      rfl
    have hproj := read_loop_proj (pre ++ SerialEvent.ioError :: post) none []
    rw [hrec] at hproj
    simp only [List.map_nil] at hproj
    simp [read_serial_data, hproj, Except.map]

/-- Witness for C5: two records are already collected when the I/O error
hits; the result is nevertheless the empty capture. -/
theorem c5_io_error_discards_data_witness :
    read_serial_data true true
        ([SerialEvent.line (test_line 0), SerialEvent.line (test_line 100)] ++
          SerialEvent.ioError :: []) = ⟨[], false⟩ :=
  (c5_io_error_discards_data []
      [SerialEvent.line (test_line 0), SerialEvent.line (test_line 100)] []).2
    (some 0)
    [((0 : ℤ), List.replicate DATA_COLUMNS (1 : ℚ)),
     ((100 : ℤ), List.replicate DATA_COLUMNS (1 : ℚ))] (by rfl)

/-- Counterexample to C2 as stated: on this trace the read step raises,
the loop exits exceptionally, and `ser.close()` is never executed — the
`except` handler (pipe.py lines 323-326) returns without closing the
device, and there is no `finally` block. -/
theorem c2_counterexample :
    read_loop [SerialEvent.ioError] none [] = Except.error () ∧
    (read_serial_data true true [SerialEvent.ioError]).closed = false :=
  ⟨rfl, rfl⟩

/-- C2 (amended): the device handle is closed exactly on normal loop
exit; when the read/parse steps raise, the `except` path returns without
closing it. -/
theorem c2_close_only_on_normal_exit (evs : List SerialEvent) :
    (∀ d, read_loop evs none [] = Except.ok d →
      (read_serial_data true true evs).closed = true) ∧
    (read_loop evs none [] = Except.error () →
      (read_serial_data true true evs).closed = false) := by
  constructor
  · intro d h
    simp [read_serial_data, h]
  · intro h
    simp [read_serial_data, h]

/-- Witness for the amended C2: a capture that ends by the duration break
closes the device. -/
theorem c2_close_only_on_normal_exit_witness :
    (read_serial_data true true
        [SerialEvent.line (test_line 0), SerialEvent.line (test_line 2500)]).closed =
      true :=
  (c2_close_only_on_normal_exit
      [SerialEvent.line (test_line 0), SerialEvent.line (test_line 2500)]).1
    [List.replicate DATA_COLUMNS (1 : ℚ)] (by rfl)

/-! ### File-store lemmas -/

theorem get_file_set_file (fs : FS) (path : String) (c : FileContent) :
    get_file (set_file fs path c) path = some c := by
  simp [get_file, set_file, List.find?_cons]

/-- Serialized float rows parse back to themselves. -/
theorem floats_of_toks_map_floatTok (r : List ℚ) :
    floats_of_toks (r.map Tok.floatTok) = some r := by
  induction r with
  | nil => rfl
  | cons q rest ih => simp [floats_of_toks, float_of_tok, ih]

/-- The preview loop appends the parse of every well-formed row, in file
order. -/
theorem preview_load_eq (rows : FileContent) :
    ∀ acc : List (List ℚ),
      preview_load rows acc = acc ++ rows.filterMap floats_of_toks := by
  induction rows with
  | nil => intro acc; simp [preview_load]
  | cons row rest ih =>
    intro acc
    cases hr : floats_of_toks row with
    | none => simp [preview_load, hr, ih, List.filterMap_cons]
    | some fl => simp [preview_load, hr, ih, List.filterMap_cons]

theorem preview_selected_sample_eq (rows : FileContent) :
    preview_selected_sample rows = rows.filterMap floats_of_toks := by
  simp [preview_selected_sample, preview_load_eq]

/-- Writing rows and parsing them back is the identity. -/
theorem csv_roundtrip (data : List (List ℚ)) :
    (csv_writerows data).filterMap floats_of_toks = data := by
  induction data with
  | nil => rfl
  | cons r rest ih =>
    have hc : csv_writerows (r :: rest) = (r.map Tok.floatTok) :: csv_writerows rest :=
      rfl
    rw [hc, List.filterMap_cons, floats_of_toks_map_floatTok, ih]

/-- Counterexample to C3 as stated: `open(filepath, "w")` has already
created the sample file when `writerows` raises; the `except` handler
(pipe.py lines 348-350) does not remove it, so this failed write leaves
an (empty) sample file on disk. -/
theorem c3_counterexample :
    (save_data_to_csv [] [[(1 : ℚ)]] (some "a") "T" (WriteOutcome.writeFail 0)).2 =
      none ∧
    get_file
        (save_data_to_csv [] [[(1 : ℚ)]] (some "a") "T" (WriteOutcome.writeFail 0)).1
        (BASE_FOLDER_NAME ++ "/" ++ "a" ++ "/" ++ ("a" ++ "_" ++ "T" ++ ".csv")) =
      some [] :=
  ⟨rfl, rfl⟩

/-- C3 (amended): a failure to open the sample file leaves the disk
unchanged (no file is created), but a write failure after a successful
open leaves the partially written file on disk while `save_data_to_csv`
reports failure by returning no path; a failed delete leaves the target
file in place. -/
theorem c3_error_effects_on_disk (fs : FS) (data : List (List ℚ))
    (dir now path : String) (k size idx : ℕ) :
    save_data_to_csv fs data (some dir) now WriteOutcome.openFail = (fs, none) ∧
    (data ≠ [] →
      save_data_to_csv fs data (some dir) now (WriteOutcome.writeFail k) =
        (set_file fs
          (BASE_FOLDER_NAME ++ "/" ++ dir ++ "/" ++ (dir ++ "_" ++ now ++ ".csv"))
          (csv_writerows (data.take k)), none)) ∧
    (delete_selected_sample fs path size idx false).1 = fs := by
  refine ⟨?_, ?_, rfl⟩
  · cases data with
    | nil => rfl
    | cons a t => rfl
  · intro h
    obtain ⟨a, t, rfl⟩ : ∃ a t, data = a :: t := by
      cases data with
      | nil => exact absurd rfl h
      | cons a t => exact ⟨a, t, rfl⟩
    rfl

/-- Witness for the amended C3: a write failure after 0 rows leaves an
empty sample file on disk. -/
theorem c3_error_effects_on_disk_witness :
    save_data_to_csv [] [[(1 : ℚ)]] (some "a") "T" (WriteOutcome.writeFail 0) =
      (set_file []
        (BASE_FOLDER_NAME ++ "/" ++ "a" ++ "/" ++ ("a" ++ "_" ++ "T" ++ ".csv"))
        (csv_writerows ([[(1 : ℚ)]].take 0)), none) :=
  (c3_error_effects_on_disk [] [[(1 : ℚ)]] "a" "T" "p" 0 0 0).2.1 (by decide)

/-- C6: writing a non-empty capture with `save_data_to_csv` and re-reading
the written file with the preview loader yields the same sequence of
float vectors. -/
theorem c6_save_preview_roundtrip (fs : FS) (dir now : String)
    (data : List (List ℚ)) (h : data ≠ []) :
    ∃ path,
      (save_data_to_csv fs data (some dir) now WriteOutcome.ok).2 = some path ∧
      (get_file (save_data_to_csv fs data (some dir) now WriteOutcome.ok).1 path).map
          preview_selected_sample = some data := by
  obtain ⟨a, t, rfl⟩ : ∃ a t, data = a :: t := by
    cases data with
    | nil => exact absurd rfl h
    | cons a t => exact ⟨a, t, rfl⟩
  refine ⟨BASE_FOLDER_NAME ++ "/" ++ dir ++ "/" ++ (dir ++ "_" ++ now ++ ".csv"),
    rfl, ?_⟩
  have hsave : (save_data_to_csv fs (a :: t) (some dir) now WriteOutcome.ok).1 =
      set_file fs (BASE_FOLDER_NAME ++ "/" ++ dir ++ "/" ++ (dir ++ "_" ++ now ++ ".csv"))
        (csv_writerows (a :: t)) := rfl
  rw [hsave, get_file_set_file]
  simp [preview_selected_sample_eq, csv_roundtrip]

/-- Witness for C6 at a concrete capture. -/
theorem c6_save_preview_roundtrip_witness :
    ∃ path,
      (save_data_to_csv [] [[(1 : ℚ)]] (some "a") "T" WriteOutcome.ok).2 = some path ∧
      (get_file (save_data_to_csv [] [[(1 : ℚ)]] (some "a") "T" WriteOutcome.ok).1
          path).map preview_selected_sample = some [[(1 : ℚ)]] :=
  c6_save_preview_roundtrip [] "a" "T" [[(1 : ℚ)]] (by decide)

/-- C8: `save_data_to_csv` rejects (leaving the disk unchanged and
returning no path) whenever the capture is empty or no label is set; on
success it writes the capture under the label's directory to
`{label}_{now}.csv` built from the wall-clock `now` argument, and returns
the full path. -/
theorem c8_save_contract (fs : FS) (data : List (List ℚ))
    (current_label_dir : Option String) (now : String) (w : WriteOutcome) :
    ((data = [] ∨ current_label_dir = none) →
      save_data_to_csv fs data current_label_dir now w = (fs, none)) ∧
    (∀ dir, current_label_dir = some dir → data ≠ [] →
      save_data_to_csv fs data current_label_dir now WriteOutcome.ok =
        (set_file fs
          (BASE_FOLDER_NAME ++ "/" ++ dir ++ "/" ++ (dir ++ "_" ++ now ++ ".csv"))
          (csv_writerows data),
        some (BASE_FOLDER_NAME ++ "/" ++ dir ++ "/" ++ (dir ++ "_" ++ now ++ ".csv")))) := by
  constructor
  · intro h
    rcases h with rfl | rfl
    · cases current_label_dir with
      | none => rfl
      | some dir => rfl
    · rfl
  · intro dir hdir h
    subst hdir
    obtain ⟨a, t, rfl⟩ : ∃ a t, data = a :: t := by
      cases data with
      | nil => exact absurd rfl h
      | cons a t => exact ⟨a, t, rfl⟩
    rfl

/-- Witness for C8: the empty capture is rejected without touching the
disk; a one-row capture is written and its path returned. -/
theorem c8_save_contract_witness :
    save_data_to_csv [] [] (some "a") "T" WriteOutcome.ok = ([], none) ∧
    save_data_to_csv [] [[(1 : ℚ)]] (some "a") "T" WriteOutcome.ok =
      (set_file []
        (BASE_FOLDER_NAME ++ "/" ++ "a" ++ "/" ++ ("a" ++ "_" ++ "T" ++ ".csv"))
        (csv_writerows [[(1 : ℚ)]]),
      some (BASE_FOLDER_NAME ++ "/" ++ "a" ++ "/" ++ ("a" ++ "_" ++ "T" ++ ".csv"))) :=
  ⟨(c8_save_contract [] [] (some "a") "T" WriteOutcome.ok).1 (Or.inl rfl),
   (c8_save_contract [] [[(1 : ℚ)]] (some "a") "T" WriteOutcome.ok).2 "a" rfl
     (by decide)⟩

/-- C10: previewing a stored file silently skips every row with a field
that does not parse as a float: the preview is exactly the well-formed
rows, parsed, in file order, and a malformed row anywhere contributes
nothing (the loop never aborts on it). -/
theorem c10_preview_skips_malformed (pre post : List (List Tok)) (row : List Tok) :
    (∀ rows : FileContent,
      preview_selected_sample rows = rows.filterMap floats_of_toks) ∧
    (floats_of_toks row = none →
      preview_selected_sample (pre ++ row :: post) =
        preview_selected_sample (pre ++ post)) := by
  refine ⟨preview_selected_sample_eq, ?_⟩
  intro h
  simp [preview_selected_sample_eq, List.filterMap_append, List.filterMap_cons, h]

/-- Witness for C10: a file whose middle row has a malformed field
previews exactly like the file without that row. -/
theorem c10_preview_skips_malformed_witness :
    preview_selected_sample
        ([[Tok.floatTok 1]] ++ [Tok.badTok, Tok.floatTok 2] :: [[Tok.intTok 3]]) =
      preview_selected_sample ([[Tok.floatTok 1]] ++ [[Tok.intTok 3]]) :=
  (c10_preview_skips_malformed [[Tok.floatTok 1]] [[Tok.intTok 3]]
      [Tok.badTok, Tok.floatTok 2]).2 (by rfl)

/-! ### Label sanitization -/

/-- Characters kept by the sanitizer are never whitespace, so the
trailing `.strip()` never removes a kept character. -/
theorem keep_char_not_whitespace (c : Char) (h : keep_char c = true) :
    c.isWhitespace = false := by
  cases hw : c.isWhitespace with
  | false => rfl
  | true =>
    exfalso
    have hw2 : ((c = ' ' ∨ c = '\t') ∨ c = '\r') ∨ c = '\n' := by
      simpa [Char.isWhitespace] using hw
    rcases hw2 with ((rfl | rfl) | rfl) | rfl <;> exact absurd h (by decide)

theorem mem_py_strip {l : List Char} {c : Char} (h : c ∈ py_strip l) : c ∈ l := by
  have h1 : c ∈ (l.dropWhile Char.isWhitespace).reverse.dropWhile Char.isWhitespace := by
    simpa [py_strip] using h
  have h2 : c ∈ (l.dropWhile Char.isWhitespace).reverse :=
    (List.dropWhile_sublist _).subset h1
  exact (List.dropWhile_sublist _).subset (List.mem_reverse.mp h2)

theorem dropWhile_eq_self_of_forall {p : Char → Bool} {l : List Char}
    (h : ∀ c ∈ l, p c = false) : l.dropWhile p = l := by
  cases l with
  | nil => rfl
  | cons a t => simp [List.dropWhile_cons, h a (List.mem_cons_self a t)]

theorem py_strip_eq_self {l : List Char} (h : ∀ c ∈ l, c.isWhitespace = false) :
    py_strip l = l := by
  unfold py_strip
  rw [dropWhile_eq_self_of_forall h,
    dropWhile_eq_self_of_forall (fun c hc => h c (List.mem_reverse.mp hc))]
  exact List.reverse_reverse l

/-- Every character of a sanitized name passes the sanitizer's filter. -/
theorem sanitize_label_chars {s : List Char} {c : Char}
    (h : c ∈ sanitize_label s) : keep_char c = true :=
  (List.mem_filter.mp (mem_py_strip h)).2

/-- C7: label-name sanitization (keep only alphanumerics, `_`, `-`) is
idempotent, and a name whose sanitized form is empty is rejected by
`add_new_label` with no directory created. -/
theorem c7_sanitize_idempotent (s : List Char) (dirs : List (List Char)) :
    sanitize_label (sanitize_label s) = sanitize_label s ∧
    (sanitize_label s = [] → add_new_label dirs s = (dirs, none)) := by
  constructor
  · have hfilter : (sanitize_label s).filter keep_char = sanitize_label s :=
      List.filter_eq_self.mpr (fun c hc => sanitize_label_chars hc)
    show py_strip ((sanitize_label s).filter keep_char) = sanitize_label s
    rw [hfilter]
    exact py_strip_eq_self
      (fun c hc => keep_char_not_whitespace c (sanitize_label_chars hc))
  · intro h
    simp [add_new_label, h]

/-- Witness for C7: sanitizing `" a!b "` twice equals sanitizing it once,
and the all-punctuation name `"!?"` is rejected without touching the
label store. -/
theorem c7_sanitize_idempotent_witness :
    sanitize_label (sanitize_label (' ' :: 'a' :: '!' :: 'b' :: ' ' :: [])) =
      sanitize_label (' ' :: 'a' :: '!' :: 'b' :: ' ' :: []) ∧
    add_new_label [['x']] ('!' :: '?' :: []) = ([['x']], none) :=
  ⟨(c7_sanitize_idempotent (' ' :: 'a' :: '!' :: 'b' :: ' ' :: []) []).1,
   (c7_sanitize_idempotent ('!' :: '?' :: []) [['x']]).2 (by decide)⟩

/-! ### Delete-selection focus logic -/

/-- C9: after deleting the selected sample from a list of more than one
item, the selection moves to the previous index when the deleted item was
last, stays at the same index otherwise, and in either case lands inside
the shrunken list (never out of bounds). -/
theorem c9_delete_selection_in_bounds (fs : FS) (path : String) (size idx : ℕ)
    (h1 : 1 < size) (h2 : idx < size) :
    (delete_selected_sample fs path size idx true).2 =
      next_index_to_select size idx ∧
    (idx = size - 1 → next_index_to_select size idx = (idx : ℤ) - 1) ∧
    (idx < size - 1 → next_index_to_select size idx = (idx : ℤ)) ∧
    0 ≤ next_index_to_select size idx ∧
    next_index_to_select size idx < (size : ℤ) - 1 := by
  refine ⟨rfl, ?_⟩
  unfold next_index_to_select
  rw [if_pos h1]
  by_cases hlt : idx < size - 1
  · rw [if_pos hlt]
    exact ⟨by intro h; omega, fun _ => rfl, by omega, by omega⟩
  · have hidx : 0 < idx := by omega
    rw [if_neg hlt, if_pos hidx]
    exact ⟨fun _ => rfl, by intro h; omega, by omega, by omega⟩

/-- Witness for C9: deleting the last item (index 2) of a 3-item list
selects index 1, which is in bounds for the remaining 2 items. -/
theorem c9_delete_selection_in_bounds_witness :
    (delete_selected_sample [] "p" 3 2 true).2 = next_index_to_select 3 2 ∧
    next_index_to_select 3 2 = ((2 : ℕ) : ℤ) - 1 ∧
    0 ≤ next_index_to_select 3 2 ∧
    next_index_to_select 3 2 < ((3 : ℕ) : ℤ) - 1 :=
  ⟨(c9_delete_selection_in_bounds [] "p" 3 2 (by decide) (by decide)).1,
   (c9_delete_selection_in_bounds [] "p" 3 2 (by decide) (by decide)).2.1 (by decide),
   (c9_delete_selection_in_bounds [] "p" 3 2 (by decide) (by decide)).2.2.2.1,
   (c9_delete_selection_in_bounds [] "p" 3 2 (by decide) (by decide)).2.2.2.2⟩
